import Mathlib

set_option maxRecDepth 16384

/-!
Verification development for the Clawtherion counter service (src/server.js).

The service is an Express app over a Postgres store.  We shallow-embed it:
the three tables (`state` key/value, `clicks`, `logs`) become a `DB`
structure; each SQL statement becomes a pure function on `DB`; each HTTP
handler becomes a function from `DB` (plus request data and the current
time in milliseconds) to a new `DB`, a response, and the list of Telegram
messages sent.  Telegram messages are represented structurally: each
`Notif` constructor carries exactly the data the source interpolates into
the corresponding template string.  JavaScript number arithmetic is
modelled exactly over `Int`/`ℚ` (the quantities involved are small
integers, for which IEEE doubles are exact).

Concurrency: every `await` in the `POST /click` handler is a yield point
of the Node event loop, and each SQL statement is individually atomic.
We model this with a small-step thread (`ClickThread`/`stepThread`), one
step per store round-trip, and an explicit scheduler over interleavings.
-/

namespace Clawtherion

/-! ### JavaScript string and number primitives -/

/-- Leading decimal digits of a character list; `none` when the list does
not start with a digit (JS `NaN`).  Stops at the first non-digit. -/
def parseDigits : List Char → Option Nat → Option Nat
  | [], acc => acc
  | c :: cs, acc =>
    if c.isDigit then parseDigits cs (some ((acc.getD 0) * 10 + (c.toNat - 48)))
    else acc

/-- Value of a hexadecimal digit. -/
def hexVal (c : Char) : Nat :=
  if c.isDigit then c.toNat - 48
  else if c.toNat ≥ 97 then c.toNat - 87
  else c.toNat - 55

/-- Hexadecimal digit test (0-9, a-f, A-F). -/
def isHexDigitChar (c : Char) : Bool :=
  c.isDigit || (97 ≤ c.toNat && c.toNat ≤ 102) || (65 ≤ c.toNat && c.toNat ≤ 70)

/-- Leading hexadecimal digits, `none` when there are none. -/
def parseHexDigits : List Char → Option Nat → Option Nat
  | [], acc => acc
  | c :: cs, acc =>
    if isHexDigitChar c then parseHexDigits cs (some ((acc.getD 0) * 16 + hexVal c))
    else acc

/-- Unsigned part of JS `parseInt`: an `0x`/`0X` prefix switches to
hexadecimal, otherwise leading decimal digits are taken. -/
def parseUnsigned (cs : List Char) : Option Nat :=
  match cs with
  | '0' :: 'x' :: rest => parseHexDigits rest none
  | '0' :: 'X' :: rest => parseHexDigits rest none
  | _ => parseDigits cs none

/-- The mathematical value of the digit span of JS `parseInt(s)` (the
MV of ECMA-262 before conversion to a Number): skip leading whitespace,
optional sign, then the longest digit span, radix auto-detected; `none`
models `NaN`.  This exact integer is then rounded to binary64 by
`parseIntJS`. -/
def parseIntExact (s : String) : Option Int :=
  match (s.toList.dropWhile Char.isWhitespace) with
  | '-' :: rest => (parseUnsigned rest).map (fun n => -(n : Int))
  | '+' :: rest => (parseUnsigned rest).map (fun n => (n : Int))
  | cs => (parseUnsigned cs).map (fun n => (n : Int))

/-- Fuel-driven `⌊log₂ n⌋` (structural recursion, so that concrete
runs reduce inside `decide`). -/
def natLog2Fuel : Nat → Nat → Nat
  | _, 0 => 0
  | n, fuel + 1 => if n ≤ 1 then 0 else natLog2Fuel (n / 2) fuel + 1

/-- `⌊log₂ n⌋` for `n ≥ 1` (and `0` at `0`). -/
def natLog2 (n : Nat) : Nat := natLog2Fuel n n

/-- A JS number that `parseInt` can produce: an integral finite double
(represented by its exact integer value) or an infinity.  `NaN` is
represented as `none` at the `Option JsInt` level. -/
inductive JsInt where
  | num (v : Int)
  | inf
  | negInf
deriving Repr, DecidableEq

/-- Round a nonnegative integer to the nearest binary64 value
(round-to-nearest, ties to even, 53-bit significand); `none` is overflow
to `Infinity` (rounded value ≥ 2^1024).  Every integer below 2^53 is
exact. -/
def roundNatToDouble (a : Nat) : Option Nat :=
  if a < 2^53 then some a
  else
    let k := natLog2 a
    let shift := k - 52
    let q := a / 2^shift
    let r := a % 2^shift
    let half := 2^(shift - 1)
    let q1 := if r > half then q + 1 else if r < half then q else q + q % 2
    let v := q1 * 2^shift
    if v ≥ 2^1024 then none else some v

/-- Round an integer to binary64 (sign-symmetric). -/
def roundIntToDouble (v : Int) : JsInt :=
  match roundNatToDouble v.natAbs with
  | none => if v < 0 then JsInt.negInf else JsInt.inf
  | some a => if v < 0 then JsInt.num (-(a : Int)) else JsInt.num a

/-- JS `parseInt(s)`: the exact digit value rounded to a double.  `none`
models `NaN`. -/
def parseIntJS (s : String) : Option JsInt :=
  (parseIntExact s).map roundIntToDouble

/-- JS truthiness-and-range test `!(!n || n < 1)` applied to a `parseInt`
result (the acceptance condition of `/bless` and `/settarget`): `0` is
falsy, `-Infinity < 1`, `Infinity` passes. -/
def jsTruthyPos : JsInt → Bool
  | JsInt.num v => decide (1 ≤ v)
  | JsInt.inf => true
  | JsInt.negInf => false

/-- JS `String.prototype.split(' ')`, on character lists: split at every
single space, keeping empty fragments. -/
def splitSp : List Char → List (List Char)
  | [] => [[]]
  | c :: cs =>
    let r := splitSp cs
    if c = ' ' then [] :: r
    else (c :: r.headD []) :: r.tail

/-- JS `text.split(' ')` on strings. -/
def jsSplitSpace (s : String) : List String :=
  (splitSp s.toList).map (fun cs => String.mk cs)

/-- JS `array.join(' ')`. -/
def joinSpaces : List String → String
  | [] => ""
  | [x] => x
  | x :: y :: xs => x ++ " " ++ joinSpaces (y :: xs)

/-- JS `s.trim()`: strip whitespace from both ends. -/
def trimStr (s : String) : String :=
  String.mk (((s.toList.dropWhile Char.isWhitespace).reverse.dropWhile
    Char.isWhitespace).reverse)

/-- JS `s.slice(0, n)` for ASCII text: the first `n` characters. -/
def takeStr (s : String) (n : Nat) : String :=
  String.mk (s.toList.take n)

/-- JS `s.toLowerCase()` on ASCII command names. -/
def lowerStr (s : String) : String :=
  String.mk (s.toList.map Char.toLower)

/-! ### Binary64 (IEEE double) arithmetic, over exact integers

The handler computes `Math.round((n/target)*100)`, `Math.floor(target*0.5)`
and `Math.floor(target*0.75)` in doubles.  We model each double by its
exact value `m * 2^e` (`m, e` integers) and implement the two rounding
steps (the division `n/t` and the multiplication by `100`; multiplying a
double by `0.5` or `0.75` is a single rounding of `t/2` resp. `3t/4`,
since `0.5` and `0.75` are themselves exact doubles) with round-to-
nearest, ties to even, at 53 significand bits.  Everything is plain
`Nat`/`Int` arithmetic so that concrete runs evaluate by `decide`;
subnormals and overflow do not occur for the positive operands the
handler can produce and are not modelled. -/

/-- Decides `2^k ≤ a/b` for naturals `a`, `b` and an integer `k`. -/
def pow2le (a b : Nat) (k : Int) : Bool :=
  if 0 ≤ k then b * 2^(k.toNat) ≤ a else b ≤ a * 2^((-k).toNat)

/-- `⌊log₂ (a/b)⌋` for positive naturals, via `Nat.log2` with a one-step
correction. -/
def ratLog2Int (a b : Nat) : Int :=
  let k0 : Int := (natLog2 a : Int) - (natLog2 b : Int)
  if pow2le a b k0 then k0 else k0 - 1

/-- `a/b` rounded to the nearest integer, ties to even. -/
def roundNEDiv (a b : Nat) : Nat :=
  let q := a / b
  let r := a % b
  if 2 * r < b then q else if b < 2 * r then q + 1 else q + q % 2

/-- The nearest binary64 value to `a/b` (positive normal range), as a
significand/exponent pair `(m, e)` with value `m * 2^e` and
`2^52 ≤ m ≤ 2^53`. -/
def flPair (a b : Nat) : Nat × Int :=
  let k := ratLog2Int a b
  let e := k - 52
  let m := if e ≤ 0 then roundNEDiv (a * 2^((-e).toNat)) b
           else roundNEDiv a (b * 2^(e.toNat))
  (m, e)

/-- `Math.floor` of the value `m * 2^e`. -/
def pairFloor (p : Nat × Int) : Int :=
  if 0 ≤ p.2 then ((p.1 * 2^(p.2.toNat) : Nat) : Int)
  else ((p.1 / 2^((-p.2).toNat) : Nat) : Int)

/-- `Math.round` of the nonnegative value `m * 2^e`: the exact
`⌊m·2^e + 1/2⌋` (ECMA rounds half toward +∞ on the exact value of the
double). -/
def pairRoundHalfUp (p : Nat × Int) : Int :=
  if 0 ≤ p.2 then ((p.1 * 2^(p.2.toNat) : Nat) : Int)
  else (let s := (-p.2).toNat; (((2 * p.1 + 2^s) / 2^(s+1) : Nat) : Int))

/-- `Math.round((n/target)*100)` in binary64: round `n/t` to a double,
multiply by `100` (one more rounding), `Math.round` the result.  The
`0` guard covers non-positive operands, which an accepted click cannot
produce (`n ≥ 1`; `target` non-positive only under a hand-edited state
row). -/
def jsPct (n t : Int) : Int :=
  if n ≤ 0 ∨ t ≤ 0 then 0
  else
    let x1 := flPair n.toNat t.toNat
    let x2 := flPair (x1.1 * 100) 1
    pairRoundHalfUp (x2.1, x2.2 + x1.2)

/-- `Math.floor(target*0.5)` in binary64 (`t*0.5` is the single rounding
of `t/2`). -/
def jsFloorHalf (t : Int) : Int :=
  if t ≤ 0 then 0 else pairFloor (flPair t.toNat 2)

/-- `Math.floor(target*0.75)` in binary64 (`t*0.75` is the single
rounding of `3t/4`, because `0.75` is an exact double and the product is
rounded once). -/
def jsFloor75 (t : Int) : Int :=
  if t ≤ 0 then 0 else pairFloor (flPair (3 * t.toNat) 4)

/-! ### ECMA `String()` of an integral double

`String(n)` for an integral double returns the decimal numeral of `n`
when `|n| < 10^21` has a short enough representation — concretely ECMA
6.1.6.1.20 picks the decimal with the fewest significant digits that
rounds back to `n` (ties: closest, then even), rendering it with
trailing zeros below 10^21 and in exponential notation from 10^21 on.
For `|n| ≤ 2^53` the unit-ulp rounding interval around `n` contains no
other integer, so the shortest representation is the exact numeral and
`String(n) = toString n`; above 2^53 the algorithm below searches the
shortest digit count `k` explicitly. -/

def natDigitCount (a : Nat) : Nat := (Nat.toDigits 10 a).length

/-- Does the decimal candidate `c` round (to-nearest, ties-even) back to
the double with value `a = m * 2^e`? -/
def ecmaValid (a m : Nat) (e : Nat) (c : Nat) : Bool :=
  if c = a then true
  else if c < a then
    let d := a - c
    if m = 2^52 then 4 * d ≤ 2^e
    else if m % 2 = 0 then 2 * d ≤ 2^e else 2 * d < 2^e
  else
    let d := c - a
    if m % 2 = 0 then 2 * d ≤ 2^e else 2 * d < 2^e

/-- Among the two k-digit candidates nearest `a`, pick the valid one
closest to `a` (ties: the even significand), if any. -/
def ecmaPick (a m : Nat) (e : Nat) (scale : Nat) : Option Nat :=
  let q := a / scale
  let v1 := ecmaValid a m e (q * scale)
  let v2 := ecmaValid a m e ((q + 1) * scale)
  if v1 && v2 then
    let d1 := a - q * scale
    let d2 := (q + 1) * scale - a
    if d1 < d2 then some q
    else if d2 < d1 then some (q + 1)
    else if q % 2 = 0 then some q else some (q + 1)
  else if v1 then some q
  else if v2 then some (q + 1)
  else none

/-- Search the smallest significant-digit count `k = 1, 2, ...`; returns
the significand `s` and the digit position `n` of the chosen value. -/
def ecmaLoop (a m : Nat) (e : Nat) (L : Nat) : Nat → Nat → Nat × Nat
  | _, 0 => (a, L)
  | k, fuel + 1 =>
    let scale := 10^(L - k)
    match ecmaPick a m e scale with
    | some s => (s, natDigitCount (s * scale))
    | none => ecmaLoop a m e L (k + 1) fuel

/-- Lay out significand digits `s` at digit position `n` per ECMA:
plain digits and zeros below position 22, exponential from there. -/
def ecmaRender (s n : Nat) : String :=
  let ds := toString s
  let k := ds.length
  if n ≤ 21 then ds ++ String.mk (List.replicate (n - k) '0')
  else if k = 1 then ds ++ "e+" ++ toString (n - 1)
  else takeStr ds 1 ++ "." ++ String.mk (ds.toList.drop 1) ++ "e+" ++ toString (n - 1)

/-- `String(a)` for the value `a` of a positive integral double with
`a > 2^53`. -/
def ecmaIntString (a : Nat) : String :=
  let e := natLog2 a - 52
  let m := a / 2^e
  let L := natDigitCount a
  let r := ecmaLoop a m e L 1 L
  ecmaRender r.1 r.2

/-- JS `String(n)` of a `parseInt` result. -/
def jsIntToString : JsInt → String
  | JsInt.inf => "Infinity"
  | JsInt.negInf => "-Infinity"
  | JsInt.num v =>
    if v.natAbs ≤ 2^53 then toString v
    else if 0 ≤ v then ecmaIntString v.natAbs
    else "-" ++ ecmaIntString v.natAbs

/-! ### Data model: the three Postgres tables -/

/-- The `state` key/value table, restricted to the nine keys the program
ever reads or writes (`initDB` defaults, src/server.js lines 42-46).
`none` models an absent row. -/
structure StateTable where
  count : Option String := none
  target : Option String := none
  ca : Option String := none
  launched : Option String := none
  locked : Option String := none
  lock_msg : Option String := none
  decree : Option String := none
  tide_warning : Option String := none
  blessed : Option String := none
deriving Repr, DecidableEq

/-- A row of the `clicks` table: origin IP and insertion timestamp
(milliseconds). -/
structure Click where
  ip : String
  clicked_at : Nat
deriving Repr, DecidableEq

/-- A row of the `logs` table (timestamps omitted: the program only uses
insertion order). -/
structure LogEntry where
  event : String
  detail : String
deriving Repr, DecidableEq

/-- The whole database. -/
structure DB where
  state : StateTable := {}
  clicks : List Click := []
  logs : List LogEntry := []
deriving Repr, DecidableEq

/-- `SELECT value FROM state WHERE key=$1` (src/server.js getState). -/
def getStateKey (st : StateTable) (key : String) : Option String :=
  if key = "count" then st.count
  else if key = "target" then st.target
  else if key = "ca" then st.ca
  else if key = "launched" then st.launched
  else if key = "locked" then st.locked
  else if key = "lock_msg" then st.lock_msg
  else if key = "decree" then st.decree
  else if key = "tide_warning" then st.tide_warning
  else if key = "blessed" then st.blessed
  else none

/-- `INSERT ... ON CONFLICT (key) DO UPDATE` (src/server.js setState):
upsert of one of the nine keys. -/
def setStateKey (st : StateTable) (key value : String) : StateTable :=
  if key = "count" then { st with count := some value }
  else if key = "target" then { st with target := some value }
  else if key = "ca" then { st with ca := some value }
  else if key = "launched" then { st with launched := some value }
  else if key = "locked" then { st with locked := some value }
  else if key = "lock_msg" then { st with lock_msg := some value }
  else if key = "decree" then { st with decree := some value }
  else if key = "tide_warning" then { st with tide_warning := some value }
  else if key = "blessed" then { st with blessed := some value }
  else st

def getState (db : DB) (key : String) : Option String :=
  getStateKey db.state key

def setState (db : DB) (key value : String) : DB :=
  { db with state := setStateKey db.state key value }

/-- `INSERT INTO logs (event, detail) VALUES ($1,$2)` (addLog). -/
def addLog (db : DB) (event detail : String) : DB :=
  { db with logs := db.logs ++ [⟨event, detail⟩] }

/-- `INSERT INTO clicks (ip) VALUES ($1)` (recordIPClick); `clicked_at`
defaults to the current time. -/
def recordIPClick (db : DB) (now : Nat) (ip : String) : DB :=
  { db with clicks := db.clicks ++ [⟨ip, now⟩] }

def MS1H : Nat := 60 * 60 * 1000
def MS6H : Nat := 6 * MS1H
def MS24H : Nat := 24 * MS1H
def MS3H : Nat := 3 * MS1H

/-- `SELECT id FROM clicks WHERE ip=$1 AND clicked_at > NOW() - INTERVAL
'24 hours'` has at least one row (hasIPClicked, src/server.js 82-85). -/
def hasIPClicked (db : DB) (now : Nat) (ip : String) : Bool :=
  db.clicks.any (fun c => c.ip == ip && decide (now - MS24H < c.clicked_at))

/-- `SELECT COUNT(*) FROM clicks WHERE clicked_at > NOW() - INTERVAL ...`. -/
def countClicksSince (db : DB) (now win : Nat) : Nat :=
  (db.clicks.filter (fun c => decide (now - win < c.clicked_at))).length

/-! ### Bootstrap (initDB, src/server.js 38-51) -/

def lockMsgDefault : String := "The tide is retreating. The depths are recalibrating."

def tideWarnDefault : String := "The tide pool closes soon. The window is narrowing."

/-- `INSERT INTO state (key, value) VALUES ($1,$2) ON CONFLICT (key) DO
NOTHING`: keep the present value, insert the default when absent. -/
def insertIfAbsent (v : Option String) (d : String) : Option String :=
  some (v.getD d)

/-- The default-insertion loop of `initDB` over the fixed default set
(src/server.js 42-49). -/
def initState (st : StateTable) : StateTable :=
  { count := insertIfAbsent st.count "0"
    target := insertIfAbsent st.target "100"
    ca := insertIfAbsent st.ca ""
    launched := insertIfAbsent st.launched "false"
    locked := insertIfAbsent st.locked "false"
    lock_msg := insertIfAbsent st.lock_msg lockMsgDefault
    decree := insertIfAbsent st.decree ""
    tide_warning := insertIfAbsent st.tide_warning ""
    blessed := insertIfAbsent st.blessed "" }

/-- `initDB` on the whole database: `CREATE TABLE IF NOT EXISTS` leaves
existing tables alone, then the defaults are inserted if absent. -/
def initDB (db : DB) : DB :=
  { db with state := initState db.state }

/-- C9: the bootstrap default-insertion writes a default value only for
state fields that are absent and never overwrites an existing value
(each resulting field is `some (prior.getD default)`), and running the
bootstrap twice leaves the state identical to running it once. -/
theorem initDB_defaults_idempotent (st : StateTable) :
    (initState st).count = some (st.count.getD "0")
  ∧ (initState st).target = some (st.target.getD "100")
  ∧ (initState st).ca = some (st.ca.getD "")
  ∧ (initState st).launched = some (st.launched.getD "false")
  ∧ (initState st).locked = some (st.locked.getD "false")
  ∧ (initState st).lock_msg = some (st.lock_msg.getD lockMsgDefault)
  ∧ (initState st).decree = some (st.decree.getD "")
  ∧ (initState st).tide_warning = some (st.tide_warning.getD "")
  ∧ (initState st).blessed = some (st.blessed.getD "")
  ∧ initState (initState st) = initState st := by
  refine ⟨rfl, rfl, rfl, rfl, rfl, rfl, rfl, rfl, rfl, ?_⟩
  simp [initState, insertIfAbsent]

/-! ### Outbound Telegram notifications

Each constructor stands for one `tg(...)` template string of the source
and carries exactly the data interpolated into it. -/

inductive Notif where
  | pong (count target ca : Option String)
  | countReport (c t : Option String)
  | statusReport (s : StateTable)
  | usageSetca
  | caLive (arg : String)
  | usageDecree
  | decreeLive (arg : String)
  | decreeCleared
  | usageBless
  | blessSet (n : JsInt)
  | lockdownOn (m : String)
  | unlocked
  | usageSettarget
  | targetUpdated (n : JsInt)
  | todayReport (cnt : Nat) (total target : Option String)
  | velocityReport (c1 c6 : Nat)
  | warningSet (m : String)
  | warningCleared
  | noLogs
  | logsReport (rows : List LogEntry)
  | resetWarn
  | helpMsg
  | unknownCmd (cmd : String)
  | confirmExpired
  | resetDone
  | progress (n t pct : Int) (half threeq tenleft : Bool)
  | blessedOne (n : Int)
  | launchedMsg (n : Int)
  | stallMsg (count target : Option String)
deriving Repr, DecidableEq

/-! ### Admin command processor (POST /webhook, src/server.js 166-295) -/

/-- A transient in-memory pending confirmation (`pendingConfirm[chatId]`).
The map is keyed by chat id, but only the operator chat ever passes the
identity check, so a single optional entry models it. -/
structure PendingEntry where
  command : String
  expiresAt : Nat
deriving Repr, DecidableEq

/-- An inbound Telegram message, reduced to the fields the handler reads. -/
structure TgMsg where
  chatId : String
  text : String
deriving Repr, DecidableEq

/-- Result of one webhook delivery: the new database, the new pending
confirmation, and the Telegram messages sent (in order). -/
structure WebhookResult where
  db : DB
  pending : Option PendingEntry
  sent : List Notif
deriving Repr, DecidableEq

/-- `parts[0].toLowerCase()` (src/server.js 185-186). -/
def cmdOf (text : String) : String :=
  lowerStr ((jsSplitSpace text).headD "")

/-- `parts.slice(1).join(' ').trim()` (src/server.js 187). -/
def argOf (text : String) : String :=
  trimStr (joinSpaces ((jsSplitSpace text).drop 1))

/-- `handleConfirmed` (src/server.js 286-295): the confirmed reset zeroes
`count`, blanks `ca`/`blessed`/`decree`/`tide_warning`, sets `launched`
to `'false'` (plain SQL `UPDATE`s, so absent rows stay absent), deletes
all click records and appends a log entry. -/
def handleConfirmed (db : DB) (command : String) : DB × List Notif :=
  if command = "reset" then
    let st := db.state
    let st1 : StateTable :=
      { st with
        count := st.count.map (fun _ => "0")
        ca := st.ca.map (fun _ => "")
        blessed := st.blessed.map (fun _ => "")
        decree := st.decree.map (fun _ => "")
        tide_warning := st.tide_warning.map (fun _ => "")
        launched := st.launched.map (fun _ => "false") }
    let db1 : DB := { db with state := st1, clicks := [] }
    (addLog db1 "reset" "Full reset", [Notif.resetDone])
  else (db, [])

/-- The command dispatch chain of the webhook handler (src/server.js
189-279), after the identity check, the command log and the CONFIRM
branch.  `cmd` and `arg` are the parsed command token and argument. -/
def dispatch (db : DB) (pending : Option PendingEntry) (now : Nat)
    (cmd arg : String) : WebhookResult :=
  if cmd = "/ping" then
    ⟨db, pending, [Notif.pong (getState db "count") (getState db "target") (getState db "ca")]⟩
  else if cmd = "/count" then
    ⟨db, pending, [Notif.countReport (getState db "count") (getState db "target")]⟩
  else if cmd = "/status" then
    ⟨db, pending, [Notif.statusReport db.state]⟩
  else if cmd = "/setca" then
    if arg = "" ∨ arg.length < 10 then ⟨db, pending, [Notif.usageSetca]⟩
    else ⟨addLog (setState db "ca" arg) "set_ca" arg, pending, [Notif.caLive arg]⟩
  else if cmd = "/decree" then
    if arg = "" then ⟨db, pending, [Notif.usageDecree]⟩
    else ⟨addLog (setState db "decree" arg) "decree" arg, pending, [Notif.decreeLive arg]⟩
  else if cmd = "/cleardecree" then
    ⟨setState db "decree" "", pending, [Notif.decreeCleared]⟩
  else if cmd = "/bless" then
    match parseIntJS arg with
    | some n =>
      if jsTruthyPos n then
        ⟨setState db "blessed" (jsIntToString n), pending, [Notif.blessSet n]⟩
      else ⟨db, pending, [Notif.usageBless]⟩
    | none => ⟨db, pending, [Notif.usageBless]⟩
  else if cmd = "/lockdown" then
    let m := if arg = "" then lockMsgDefault else arg
    ⟨addLog (setState (setState db "locked" "true") "lock_msg" m) "lockdown" m,
      pending, [Notif.lockdownOn m]⟩
  else if cmd = "/unlock" then
    ⟨addLog (setState db "locked" "false") "unlock" "", pending, [Notif.unlocked]⟩
  else if cmd = "/settarget" then
    match parseIntJS arg with
    | some n =>
      if jsTruthyPos n then
        ⟨addLog (setState db "target" (jsIntToString n)) "set_target" (jsIntToString n),
          pending, [Notif.targetUpdated n]⟩
      else ⟨db, pending, [Notif.usageSettarget]⟩
    | none => ⟨db, pending, [Notif.usageSettarget]⟩
  else if cmd = "/today" then
    ⟨db, pending,
      [Notif.todayReport (countClicksSince db now MS24H) (getState db "count") (getState db "target")]⟩
  else if cmd = "/velocity" then
    ⟨db, pending,
      [Notif.velocityReport (countClicksSince db now MS1H) (countClicksSince db now MS6H)]⟩
  else if cmd = "/tidewarning" then
    let m := if arg = "" then tideWarnDefault else arg
    ⟨addLog (setState db "tide_warning" m) "tide_warning" m, pending, [Notif.warningSet m]⟩
  else if cmd = "/cleartidewarning" then
    ⟨setState db "tide_warning" "", pending, [Notif.warningCleared]⟩
  else if cmd = "/logs" then
    let rows := (db.logs.reverse).take 20
    if rows = [] then ⟨db, pending, [Notif.noLogs]⟩
    else ⟨db, pending, [Notif.logsReport rows]⟩
  else if cmd = "/reset" then
    ⟨db, some ⟨"reset", now + 60000⟩, [Notif.resetWarn]⟩
  else if cmd = "/help" then
    ⟨db, pending, [Notif.helpMsg]⟩
  else
    ⟨db, pending, [Notif.unknownCmd cmd]⟩

/-- The webhook body once the sender has passed the identity check
(src/server.js 176-279), on the already-trimmed text: log the command,
consume a pending confirmation on the literal text `CONFIRM` (expired ⇒
report and do nothing, otherwise run the stored command), else dispatch
the parsed command. -/
def webhookAuthed (db : DB) (pending : Option PendingEntry) (now : Nat)
    (text : String) : WebhookResult :=
  let db1 := addLog db "tg_command" (takeStr text 120)
  match pending with
  | some p =>
    if text = "CONFIRM" then
      if p.expiresAt < now then ⟨db1, none, [Notif.confirmExpired]⟩
      else
        let r := handleConfirmed db1 p.command
        ⟨r.1, none, r.2⟩
    else dispatch db1 (some p) now (cmdOf text) (argOf text)
  | none => dispatch db1 none now (cmdOf text) (argOf text)

/-- The `POST /webhook` handler (src/server.js 168-284): any message
whose chat id differs from the operator chat is dropped before anything
is logged (line 175 returns before the line-176 `addLog`); otherwise the
trimmed text is processed by `webhookAuthed`. -/
def webhook (adminChat : String) (db : DB) (pending : Option PendingEntry)
    (now : Nat) (msg : TgMsg) : WebhookResult :=
  if msg.chatId ≠ adminChat then ⟨db, pending, []⟩
  else webhookAuthed db pending now (trimStr msg.text)

/-- The C3 scenario: the operator sends `/reset` at time `t0` and the
literal `CONFIRM` at time `t1`. -/
def resetThenConfirm (adminChat : String) (db : DB) (t0 t1 : Nat) : WebhookResult :=
  let r1 := webhook adminChat db none t0 ⟨adminChat, "/reset"⟩
  webhook adminChat r1.db r1.pending t1 ⟨adminChat, "CONFIRM"⟩

/-! ### Click gate and milestone notifier (POST /click, src/server.js 108-157) -/

/-- `parseInt(await getState(key)) || d`: an absent row or an unparseable
value (JS `NaN`) and the falsy `0` fall back to the default.  The state
strings this reads are written by the system itself (`count` as small
successive integers, `target` via `String()` of a double, which parses
back to the same finite value, or `'Infinity'`, which is `NaN` to
`parseInt`), so the infinite branches cannot arise and are mapped to the
default. -/
def getIntState (db : DB) (key : String) (d : Int) : Int :=
  match (getState db key).bind parseIntJS with
  | some (JsInt.num n) => if n = 0 then d else n
  | _ => d

/-- The progress notification of src/server.js 131-138, built for the
post-increment count `n` and target `t`: the binary64 percentage
`Math.round((n/target)*100)` and milestone flags
`n === Math.floor(target*0.5)`, `n === Math.floor(target*0.75)`,
`n === target-10` (the integer subtraction is exact in binary64 for the
counter magnitudes the handler can produce). -/
def progressNotif (n t : Int) : Option Notif :=
  if n % 10 = 0 then
    some (Notif.progress n t (jsPct n t)
      (n == jsFloorHalf t) (n == jsFloor75 t) (n == t - 10))
  else none

/-- The blessed-click notification of src/server.js 140-143: sent when
`blessed` is a non-empty (truthy) string whose `parseInt` equals the
integral double `n`. -/
def blessedNotif (n : Int) (blessed : Option String) : Option Notif :=
  match blessed with
  | none => none
  | some s =>
    if s ≠ "" ∧ parseIntJS s = some (JsInt.num n) then some (Notif.blessedOne n)
    else none

/-- Response of `POST /click`: 200 with the JSON body, 429
`already_clicked`, or 423 `locked` with the lock message. -/
inductive ClickResp where
  | ok (count target : Int) (launched : Bool)
  | alreadyClicked
  | lockedOut (message : Option String)
deriving Repr, DecidableEq

/-- The `POST /click` handler run in isolation (no interleaved request),
one SQL statement after the other in source order (src/server.js
116-157).  The outer express-rate-limit layer (line 109-114) keys on the
same identity and returns the same 429 body, so it is not modelled
separately. -/
def clickOnce (db : DB) (now : Nat) (ip : String) : DB × ClickResp × List Notif :=
  if hasIPClicked db now ip then (db, ClickResp.alreadyClicked, [])
  else if getState db "locked" = some "true" then
    (db, ClickResp.lockedOut (getState db "lock_msg"), [])
  else
    let c := getIntState db "count" 0
    let t := getIntState db "target" 100
    let n := c + 1
    let db1 := setState db "count" (toString n)
    let db2 := recordIPClick db1 now ip
    let db3 := addLog db2 "click" ("IP:" ++ ip ++ " Count:" ++ toString n)
    let ns1 := (progressNotif n t).toList
    let ns2 := (blessedNotif n (getState db3 "blessed")).toList
    if t ≤ n then
      if getState db3 "launched" ≠ some "true" then
        (setState db3 "launched" "true", ClickResp.ok n t true,
          ns1 ++ ns2 ++ [Notif.launchedMsg n])
      else (db3, ClickResp.ok n t true, ns1 ++ ns2)
    else (db3, ClickResp.ok n t false, ns1 ++ ns2)

/-! ### Idle-stall detector (setInterval, src/server.js 310-319) -/

/-- One run of the 3-hour idle-stall detector.  The detector's 3-hour
window query against the store can fail; `q` is that query's outcome
(`Except.ok ()` delivers `countClicksSince db now MS3H`).  The
surrounding `try { ... } catch(e) {}` swallows the failure, which is the
`Except.error` branch: no emission, no crash. -/
def stallTick (db : DB) (now : Nat) (q : Except String Unit) : DB × List Notif :=
  if getState db "launched" = some "true" then (db, [])
  else
    match q with
    | Except.error _ => (db, [])
    | Except.ok _ =>
      if countClicksSince db now MS3H = 0 then
        (db, [Notif.stallMsg (getState db "count") (getState db "target")])
      else (db, [])

/-! ### Small-step model of concurrent clicks

Node runs request handlers on one event loop, but every `await` yields;
each SQL statement is atomic at the store while the handler's local
variables persist across yields.  `stepThread` performs exactly one
store round-trip (or local milestone computation) of the click handler,
with the program position `pc` numbered by the `await`s of src/server.js
116-152. -/

structure ClickThread where
  ip : String
  pc : Nat := 0
  c : Int := 0
  t : Int := 0
  wl : Bool := false
  resp : Option ClickResp := none
  sent : List Notif := []
deriving Repr, DecidableEq

/-- One atomic step of a click request.  pc 0: `hasIPClicked`; 1: read
`locked`; 2: read `lock_msg` and answer 423; 3: read `count`; 4: read
`target`; 5: write `count = c+1`; 6: insert the click record; 7: append
the log entry; 8: progress notification; 9: read `blessed` and notify;
10: read `launched` when `n >= target`; 11: conditionally write
`launched`; 12: emit the launched notification; 13: respond; 99: done. -/
def stepThread (now : Nat) (db : DB) (th : ClickThread) : DB × ClickThread :=
  match th.pc with
  | 0 =>
    if hasIPClicked db now th.ip then
      (db, { th with resp := some ClickResp.alreadyClicked, pc := 99 })
    else (db, { th with pc := 1 })
  | 1 =>
    if getState db "locked" = some "true" then (db, { th with pc := 2 })
    else (db, { th with pc := 3 })
  | 2 => (db, { th with resp := some (ClickResp.lockedOut (getState db "lock_msg")), pc := 99 })
  | 3 => (db, { th with c := getIntState db "count" 0, pc := 4 })
  | 4 => (db, { th with t := getIntState db "target" 100, pc := 5 })
  | 5 => (setState db "count" (toString (th.c + 1)), { th with pc := 6 })
  | 6 => (recordIPClick db now th.ip, { th with pc := 7 })
  | 7 => (addLog db "click" ("IP:" ++ th.ip ++ " Count:" ++ toString (th.c + 1)), { th with pc := 8 })
  | 8 => (db, { th with sent := th.sent ++ (progressNotif (th.c + 1) th.t).toList, pc := 9 })
  | 9 => (db, { th with sent := th.sent ++ (blessedNotif (th.c + 1) (getState db "blessed")).toList, pc := 10 })
  | 10 =>
    if th.t ≤ th.c + 1 then
      (db, { th with wl := getState db "launched" == some "true", pc := 11 })
    else (db, { th with pc := 13 })
  | 11 =>
    if th.wl then (db, { th with pc := 13 })
    else (setState db "launched" "true", { th with pc := 12 })
  | 12 => (db, { th with sent := th.sent ++ [Notif.launchedMsg (th.c + 1)], pc := 13 })
  | 13 => (db, { th with resp := some (ClickResp.ok (th.c + 1) th.t (th.t ≤ th.c + 1)), pc := 99 })
  | _ => (db, th)

/-- Run two concurrent click requests under an explicit schedule:
`true` steps thread `a`, `false` steps thread `b`. -/
def runSched (now : Nat) : List Bool → DB → ClickThread → ClickThread →
    DB × ClickThread × ClickThread
  | [], db, a, b => (db, a, b)
  | pick :: rest, db, a, b =>
    if pick then
      let r := stepThread now db a
      runSched now rest r.1 r.2 b
    else
      let r := stepThread now db b
      runSched now rest r.1 a r.2

/-! ### Concrete instances used as test inputs -/

/-- A freshly bootstrapped database. -/
def db0 : DB := initDB {}

/-- Bootstrapped state, count at 5, two distinct IPs about to click. -/
def dbC1 : DB := { state := { initState {} with count := some "5" } }

/-- Bootstrapped state one click short of the target of 100. -/
def dbC2 : DB := { state := { initState {} with count := some "99" } }

def thA : ClickThread := { ip := "1.1.1.1" }

def thB : ClickThread := { ip := "2.2.2.2" }

/-- Interleaving: both requests pass the anti-spam and lock checks and
read `count` before either writes it; then each finishes alone. -/
def schedC1 : List Bool :=
  [true, true, true, false, false, false] ++
    List.replicate 8 true ++ List.replicate 8 false

/-- Fully sequential schedule: request `a` runs to completion, then `b`. -/
def seqSched : List Bool := List.replicate 11 true ++ List.replicate 11 false

/-- Interleaving: request `a` runs up to (and including) its read of
`launched`, request `b` does the same, then each finishes alone. -/
def schedC2 : List Bool :=
  List.replicate 10 true ++ List.replicate 10 false ++
    List.replicate 3 true ++ List.replicate 3 false

/-- Recognizer for the one-time launched notification. -/
def isLaunchedNotif : Notif → Bool
  | Notif.launchedMsg _ => true
  | _ => false

/-- A locked, bootstrapped database in which IP 9.9.9.9 clicked at time
500 (within 24h of time 1000). -/
def dbCex : DB :=
  { state := { initState {} with locked := some "true" },
    clicks := [⟨"9.9.9.9", 500⟩] }

/-- A locked, bootstrapped database with no click records. -/
def dbLocked : DB := { state := { initState {} with locked := some "true" } }

/-! ## Theorems -/

/-! ### Helper lemmas -/

@[simp] theorem addLog_state (db : DB) (e d : String) : (addLog db e d).state = db.state := rfl

@[simp] theorem addLog_clicks (db : DB) (e d : String) : (addLog db e d).clicks = db.clicks := rfl

@[simp] theorem setState_logs (db : DB) (k v : String) : (setState db k v).logs = db.logs := rfl

@[simp] theorem setState_clicks (db : DB) (k v : String) : (setState db k v).clicks = db.clicks := rfl

/-- On an operator-sent message the identity check passes. -/
theorem webhook_operator_eq (adminChat : String) (db : DB) (pending : Option PendingEntry)
    (now : Nat) (text : String) :
    webhook adminChat db pending now ⟨adminChat, text⟩ =
      webhookAuthed db pending now (trimStr text) := by
  unfold webhook
  exact if_neg fun h => h rfl

/-- The `/settarget` branch of the dispatch chain, isolated. -/
theorem dispatch_settarget_eq (db : DB) (pending : Option PendingEntry) (now : Nat)
    (arg : String) :
    dispatch db pending now "/settarget" arg =
      (match parseIntJS arg with
       | some n =>
         if jsTruthyPos n then
           ⟨addLog (setState db "target" (jsIntToString n)) "set_target" (jsIntToString n),
             pending, [Notif.targetUpdated n]⟩
         else ⟨db, pending, [Notif.usageSettarget]⟩
       | none => ⟨db, pending, [Notif.usageSettarget]⟩) := rfl

/-- `parseInt` is exact on integers of magnitude up to 2^53: they are
exactly representable, so the rounding step is the identity. -/
theorem roundIntToDouble_exact (m : Int) (h : m.natAbs ≤ 2^53) :
    roundIntToDouble m = JsInt.num m := by
  have hr : roundNatToDouble m.natAbs = some m.natAbs := by
    rcases lt_or_eq_of_le h with h2 | h2
    · unfold roundNatToDouble
      rw [if_pos h2]
    · rw [h2]
      decide
  unfold roundIntToDouble
  rw [hr]
  show (if m < 0 then JsInt.num (-(m.natAbs : Int)) else JsInt.num (m.natAbs : Int))
      = JsInt.num m
  by_cases hneg : m < 0
  · rw [if_pos hneg]
    congr 1
    omega
  · rw [if_neg hneg]
    congr 1
    omega

/-- `String(n)` is the decimal numeral of `n` for `|n| ≤ 2^53`: the
rounding interval of such a double has radius at most half an ulp ≤ 1/2,
so it contains no shorter decimal value and the shortest round-tripping
representation is the exact numeral. -/
theorem jsIntToString_small (m : Int) (h : m.natAbs ≤ 2^53) :
    jsIntToString (JsInt.num m) = toString m := by
  show (if m.natAbs ≤ 2^53 then toString m
        else if 0 ≤ m then ecmaIntString m.natAbs else "-" ++ ecmaIntString m.natAbs)
      = toString m
  rw [if_pos h]

/-- The `/reset` branch of the dispatch chain, isolated. -/
theorem dispatch_reset_eq (db : DB) (pending : Option PendingEntry) (now : Nat) :
    dispatch db pending now "/reset" "" =
      ⟨db, some ⟨"reset", now + 60000⟩, [Notif.resetWarn]⟩ := rfl

/-- Sanity check of the interleaving model: run sequentially, the two
accepted clicks of the C1 scenario do produce `count = 7`. -/
theorem runSched_sequential_no_loss :
    (runSched 0 seqSched dbC1 thA thB).1.state.count = some "7" := by decide

/-! ### C10 (frame of the confirmed reset) -/

/-- C10: executing the confirmed reset command modifies only `count`,
`ca`, `blessed`, `decree`, `tide_warning`, `launched` and the
click-record table; the state fields `target`, `locked` and `lock_msg`
retain exactly their prior values.  (`count` becomes `'0'`, the four
text fields become `''`, `launched` becomes `'false'` — each via a plain
SQL `UPDATE`, hence `Option.map` — and the click table is emptied.) -/
theorem reset_frame (db : DB) :
    (handleConfirmed db "reset").1.state.target = db.state.target
  ∧ (handleConfirmed db "reset").1.state.locked = db.state.locked
  ∧ (handleConfirmed db "reset").1.state.lock_msg = db.state.lock_msg
  ∧ (handleConfirmed db "reset").1.state.count = db.state.count.map (fun _ => "0")
  ∧ (handleConfirmed db "reset").1.state.ca = db.state.ca.map (fun _ => "")
  ∧ (handleConfirmed db "reset").1.state.blessed = db.state.blessed.map (fun _ => "")
  ∧ (handleConfirmed db "reset").1.state.decree = db.state.decree.map (fun _ => "")
  ∧ (handleConfirmed db "reset").1.state.tide_warning = db.state.tide_warning.map (fun _ => "")
  ∧ (handleConfirmed db "reset").1.state.launched = db.state.launched.map (fun _ => "false")
  ∧ (handleConfirmed db "reset").1.clicks = [] :=
  ⟨rfl, rfl, rfl, rfl, rfl, rfl, rfl, rfl, rfl, rfl⟩

/-! ### C4 (click rejection paths) -/

/-- C4 counterexample: a click request arriving while `locked` is true
but whose identity already has a ClickRecord within 24h is answered 429
`already_clicked`, not 423 `locked` — the already-clicked check runs
first, so the claim's unconditional "locked ⇒ 423" is false. -/
theorem click_locked_precedence_cex :
    getState dbCex "locked" = some "true"
  ∧ (clickOnce dbCex 1000 "9.9.9.9").2.1 = ClickResp.alreadyClicked
  ∧ (clickOnce dbCex 1000 "9.9.9.9").2.1 ≠
      ClickResp.lockedOut (getState dbCex "lock_msg") := by decide

/-- C4 (amended): a click whose identity has a ClickRecord within the
trailing 24 hours is answered 429 `already_clicked`; a click without
such a record arriving while `locked` is true is answered 423 `locked`
with the current `lock_msg`; in both cases the database is completely
unchanged (no counter increment, no ClickRecord, no log) and nothing is
sent. -/
theorem click_reject_spec (db : DB) (now : Nat) (ip : String) :
    (hasIPClicked db now ip = true →
      clickOnce db now ip = (db, ClickResp.alreadyClicked, []))
  ∧ (hasIPClicked db now ip = false → getState db "locked" = some "true" →
      clickOnce db now ip = (db, ClickResp.lockedOut (getState db "lock_msg"), [])) := by
  constructor
  · intro h
    simp [clickOnce, h]
  · intro h1 h2
    simp [clickOnce, h1, h2]

theorem click_reject_spec_witness :
    clickOnce dbCex 1000 "9.9.9.9" = (dbCex, ClickResp.alreadyClicked, [])
  ∧ clickOnce dbLocked 1000 "8.8.8.8" =
      (dbLocked, ClickResp.lockedOut (some lockMsgDefault), []) :=
  ⟨(click_reject_spec dbCex 1000 "9.9.9.9").1 (by decide),
   by
    have h := (click_reject_spec dbLocked 1000 "8.8.8.8").2 (by decide) (by decide)
    simpa using h⟩

/-! ### C7 (idle-stall detector) -/

/-- C7: a detector run never mutates the database; if `launched` is true
it emits nothing; otherwise it emits exactly one stall notification
carrying the current `count` and `target` when the trailing-3h click
count is zero, and nothing when it is nonzero; and a failure of the
store query is swallowed (no emission, no propagation). -/
theorem stall_detector_spec (db : DB) (now : Nat) (q : Except String Unit) :
    (stallTick db now q).1 = db
  ∧ (getState db "launched" = some "true" → (stallTick db now q).2 = [])
  ∧ (getState db "launched" ≠ some "true" → q = Except.ok () →
      ((countClicksSince db now MS3H = 0 →
          (stallTick db now q).2 =
            [Notif.stallMsg (getState db "count") (getState db "target")])
        ∧ (countClicksSince db now MS3H ≠ 0 → (stallTick db now q).2 = [])))
  ∧ (∀ e, q = Except.error e → (stallTick db now q).2 = []) := by
  refine ⟨?_, ?_, ?_, ?_⟩
  · unfold stallTick
    split
    · rfl
    · cases q with
      | error e => rfl
      | ok u => dsimp only; split <;> rfl
  · intro h
    simp [stallTick, h]
  · intro h hq
    subst hq
    refine ⟨fun hz => ?_, fun hnz => ?_⟩
    · simp [stallTick, h, hz]
    · simp [stallTick, h, hnz]
  · intro e hq
    subst hq
    simp [stallTick]

theorem stall_detector_spec_witness :
    (stallTick db0 0 (Except.ok ())).2 =
      [Notif.stallMsg (getState db0 "count") (getState db0 "target")] :=
  ((stall_detector_spec db0 0 (Except.ok ())).2.2.1 (by decide) rfl).1 (by decide)

/-! ### C6 (non-operator messages) -/

/-- C6 counterexample: a webhook message from a non-operator chat is
dropped with the database (including the `logs` table, empty before and
after) completely unchanged — so the claim that the message "has been
logged as a LogEntry" before being dropped is false: line 175 of
src/server.js returns before the line-176 `addLog`. -/
theorem nonoperator_not_logged_cex :
    db0.logs = []
  ∧ webhook "1" db0 none 0 ⟨"999", "/status"⟩ = ⟨db0, none, []⟩
  ∧ (webhook "1" db0 none 0 ⟨"999", "/status"⟩).db.logs = [] := by decide

/-- C6 (amended): every inbound webhook message whose sender chat
identity differs from the configured operator identity is silently
dropped — no notification is sent and no state field (nor any table, the
log included) changes; the drop happens before the message is logged, so
no LogEntry is written for it. -/
theorem nonoperator_dropped (adminChat : String) (db : DB)
    (pending : Option PendingEntry) (now : Nat) (msg : TgMsg)
    (h : msg.chatId ≠ adminChat) :
    webhook adminChat db pending now msg = ⟨db, pending, []⟩ := by
  unfold webhook
  exact if_pos h

theorem nonoperator_dropped_witness :
    webhook "1" dbC1 none 5 ⟨"999", "/reset"⟩ = ⟨dbC1, none, []⟩ :=
  nonoperator_dropped "1" dbC1 none 5 ⟨"999", "/reset"⟩ (by decide)

/-! ### C1 (atomicity of the count increment) -/

/-- C1 failing run: starting from `count = 5`, two concurrent click
requests from distinct identities are both accepted (both answer 200,
neither hits the already-clicked or locked checks), yet the final
`count` is 6, not 7 — the handler reads `count` and writes `count+1` in
separate store round-trips (src/server.js 124 and 127), so the
interleaving in which both read before either writes loses an update.
The claim (and the spec) require `c + N = 7` here. -/
theorem lost_update_cex :
    dbC1.state.count = some "5"
  ∧ (runSched 0 schedC1 dbC1 thA thB).2.1.resp = some (ClickResp.ok 6 100 false)
  ∧ (runSched 0 schedC1 dbC1 thA thB).2.2.resp = some (ClickResp.ok 6 100 false)
  ∧ (runSched 0 schedC1 dbC1 thA thB).1.state.count = some "6" := by decide

/-! ### C2 (one-shot launched transition) -/

/-- C2 failing run: starting from `count = 99`, `target = 100`,
`launched = 'false'`, two concurrent clicks cross the target; each reads
`launched` (src/server.js 146) before either writes it (line 148), so
both pass the `wasLaunched !== 'true'` guard and the one-time launched
notification is emitted twice (once per request).  The guard is a read
followed by a separate write, not an atomic check-and-set, so the
claim's "at most once even when concurrent clicks cross the target
simultaneously" is false on the code. -/
theorem double_launch_cex :
    dbC2.state.count = some "99"
  ∧ dbC2.state.launched = some "false"
  ∧ (runSched 0 schedC2 dbC2 thA thB).2.1.resp = some (ClickResp.ok 100 100 true)
  ∧ (runSched 0 schedC2 dbC2 thA thB).2.2.resp = some (ClickResp.ok 101 100 true)
  ∧ ((runSched 0 schedC2 dbC2 thA thB).2.1.sent ++
      (runSched 0 schedC2 dbC2 thA thB).2.2.sent).countP isLaunchedNotif = 2 := by
  decide

/-! ### C5 (milestone notifier) -/

/-- Floor division over ℚ agrees with `Int.fdiv` for a positive divisor. -/
theorem floor_ratCast_div_eq_fdiv (a b : Int) (hb : 0 < b) :
    ⌊(a : ℚ) / (b : ℚ)⌋ = Int.fdiv a b := by
  rw [Int.fdiv_eq_ediv a hb.le]
  have h1 : ((b.toNat : ℕ) : ℚ) = (b : ℚ) := by
    exact_mod_cast congrArg (Int.cast : ℤ → ℚ) (Int.toNat_of_nonneg hb.le)
  calc ⌊(a : ℚ) / (b : ℚ)⌋ = ⌊(a : ℚ) / ((b.toNat : ℕ) : ℚ)⌋ := by rw [h1]
    _ = a / (b.toNat : ℤ) := Rat.floor_intCast_div_natCast a b.toNat
    _ = a / b := by rw [Int.toNat_of_nonneg hb.le]

/-- The percentage computed by the handler is the rounded exact
percentage `round(100·n/t)`. -/
theorem pct_eq_round (n t : Int) (ht : 1 ≤ t) :
    Int.fdiv (200 * n + t) (2 * t) = round ((100 * (n : ℚ)) / (t : ℚ)) := by
  have ht0 : (t : ℚ) ≠ 0 := by
    exact_mod_cast (by omega : t ≠ 0)
  have h2 : ((100 * (n : ℚ)) / (t : ℚ)) + 1 / 2 =
      ((200 * n + t : ℤ) : ℚ) / ((2 * t : ℤ) : ℚ) := by
    push_cast
    field_simp
    ring
  rw [round_eq, h2, floor_ratCast_div_eq_fdiv _ _ (by omega)]

theorem half_eq_floor (t : Int) : Int.fdiv t 2 = ⌊(t : ℚ) / 2⌋ := by
  have h := floor_ratCast_div_eq_fdiv t 2 (by omega)
  rw [← h]
  norm_num

theorem threeq_eq_floor (t : Int) : Int.fdiv (3 * t) 4 = ⌊(t : ℚ) * 3 / 4⌋ := by
  have h := floor_ratCast_div_eq_fdiv (3 * t) 4 (by omega)
  rw [← h]
  congr 1
  push_cast
  ring

/-! #### Correctness of the integer binary64 model

The following lemmas relate the `Nat`/`Int` implementation of the
double rounding steps to the exact rationals they approximate:
`ratLog2Int` brackets `a/b` between consecutive powers of two,
`roundNEDiv` is within 1/2 of the exact quotient, hence a `flPair`
result is within relative `2⁻⁵³` of `a/b`, and `pairRoundHalfUp` is the
exact `⌊x + 1/2⌋` of the value it is applied to. -/

theorem natLog2Fuel_le : ∀ (fuel n : Nat), 1 ≤ n → n ≤ fuel → 2^(natLog2Fuel n fuel) ≤ n
  | 0, _, h1, h2 => by omega
  | fuel + 1, n, h1, _ => by
    show 2^(if n ≤ 1 then 0 else natLog2Fuel (n / 2) fuel + 1) ≤ n
    by_cases h : n ≤ 1
    · rw [if_pos h]
      simpa using h1
    · rw [if_neg h]
      have ih := natLog2Fuel_le fuel (n / 2) (by omega) (by omega)
      rw [pow_succ]
      omega

theorem natLog2Fuel_lt : ∀ (fuel n : Nat), n ≤ fuel → n < 2^(natLog2Fuel n fuel + 1)
  | 0, n, h2 => by
    have : n = 0 := by omega
    subst this
    simp
  | fuel + 1, n, _ => by
    show n < 2^((if n ≤ 1 then 0 else natLog2Fuel (n / 2) fuel + 1) + 1)
    by_cases h : n ≤ 1
    · rw [if_pos h]
      omega
    · rw [if_neg h]
      have ih := natLog2Fuel_lt fuel (n / 2) (by omega)
      rw [pow_succ, pow_succ]
      omega

theorem natLog2_self_le (n : Nat) (h : n ≠ 0) : 2^(natLog2 n) ≤ n :=
  natLog2Fuel_le n n (by omega) (le_refl n)

theorem natLog2_lt_self (n : Nat) : n < 2^(natLog2 n + 1) :=
  natLog2Fuel_lt n n (le_refl n)

theorem pow2le_iff (a b : Nat) (hb : 0 < b) (k : Int) :
    pow2le a b k = true ↔ (2:ℚ)^k ≤ (a:ℚ)/(b:ℚ) := by
  have hbq : (0:ℚ) < b := by exact_mod_cast hb
  unfold pow2le
  by_cases hk : 0 ≤ k
  · rw [if_pos hk]
    have h2 : (2:ℚ)^k = ((2^k.toNat : ℕ) : ℚ) := by
      conv_lhs => rw [← Int.toNat_of_nonneg hk]
      rw [zpow_natCast]
      push_cast
      ring
    rw [le_div_iff hbq, h2, decide_eq_true_iff]
    constructor
    · intro h
      calc ((2^k.toNat : ℕ) : ℚ) * b = ((2^k.toNat * b : ℕ) : ℚ) := by push_cast; ring
        _ ≤ a := by exact_mod_cast (Nat.mul_comm b _ ▸ h)
    · intro h
      have h3 : ((b * 2^k.toNat : ℕ) : ℚ) ≤ ((a : ℕ) : ℚ) := by
        calc ((b * 2^k.toNat : ℕ) : ℚ) = ((2^k.toNat : ℕ) : ℚ) * b := by push_cast; ring
          _ ≤ a := h
      exact Nat.cast_le.mp h3
  · rw [if_neg hk]
    have hppos : (0:ℚ) < ((2^(-k).toNat : ℕ) : ℚ) := by positivity
    have h2 : (2:ℚ)^k = 1 / ((2^(-k).toNat : ℕ) : ℚ) := by
      conv_lhs => rw [show k = -(((-k).toNat : ℕ) : ℤ) by omega]
      rw [zpow_neg, zpow_natCast, one_div]
      congr 1
      push_cast
      ring
    rw [h2, div_le_div_iff hppos hbq, decide_eq_true_iff, one_mul]
    constructor
    · intro h
      calc (b:ℚ) ≤ ((a * 2^(-k).toNat : ℕ) : ℚ) := by exact_mod_cast h
        _ = a * ((2^(-k).toNat : ℕ) : ℚ) := by push_cast; ring
    · intro h
      have h3 : ((b:ℕ):ℚ) ≤ ((a * 2^(-k).toNat : ℕ) : ℚ) := by
        calc ((b:ℕ):ℚ) ≤ a * ((2^(-k).toNat : ℕ) : ℚ) := h
          _ = ((a * 2^(-k).toNat : ℕ) : ℚ) := by push_cast; ring
      exact Nat.cast_le.mp h3

theorem ratLog2Int_le (a b : Nat) (ha : 0 < a) (hb : 0 < b) :
    (2:ℚ)^(ratLog2Int a b) ≤ (a:ℚ)/(b:ℚ) := by
  unfold ratLog2Int
  by_cases hp : pow2le a b ((natLog2 a : Int) - (natLog2 b : Int)) = true
  · rw [if_pos hp]
    exact (pow2le_iff a b hb _).mp hp
  · rw [if_neg hp]
    have h1 : (2:ℚ)^((natLog2 a : ℕ)) ≤ a := by
      exact_mod_cast natLog2_self_le a ha.ne'
    have h2 : (b:ℚ) < (2:ℚ)^((natLog2 b + 1 : ℕ)) := by
      exact_mod_cast natLog2_lt_self b
    calc (2:ℚ)^((natLog2 a : Int) - (natLog2 b : Int) - 1)
        = (2:ℚ)^((natLog2 a : ℕ)) / (2:ℚ)^((natLog2 b + 1 : ℕ)) := by
          rw [← zpow_natCast (2:ℚ) (natLog2 a), ← zpow_natCast (2:ℚ) (natLog2 b + 1),
            ← zpow_sub₀ (two_ne_zero)]
          congr 1
          push_cast
          ring
      _ ≤ (a:ℚ)/(b:ℚ) := by
          apply div_le_div (by positivity) h1 (by exact_mod_cast hb) h2.le

theorem ratLog2Int_lt (a b : Nat) (ha : 0 < a) (hb : 0 < b) :
    (a:ℚ)/(b:ℚ) < (2:ℚ)^(ratLog2Int a b + 1) := by
  unfold ratLog2Int
  by_cases hp : pow2le a b ((natLog2 a : Int) - (natLog2 b : Int)) = true
  · rw [if_pos hp]
    have h1 : (a:ℚ) < (2:ℚ)^((natLog2 a + 1 : ℕ)) := by
      exact_mod_cast natLog2_lt_self a
    have h2 : (2:ℚ)^((natLog2 b : ℕ)) ≤ b := by
      exact_mod_cast natLog2_self_le b hb.ne'
    calc (a:ℚ)/(b:ℚ) < (2:ℚ)^((natLog2 a + 1 : ℕ)) / (2:ℚ)^((natLog2 b : ℕ)) := by
          apply div_lt_div h1 h2 (by positivity) (by positivity)
      _ = (2:ℚ)^((natLog2 a : Int) - (natLog2 b : Int) + 1) := by
          rw [← zpow_natCast (2:ℚ) (natLog2 a + 1), ← zpow_natCast (2:ℚ) (natLog2 b),
            ← zpow_sub₀ (two_ne_zero)]
          congr 1
          push_cast
          ring
  · rw [if_neg hp]
    have hnot := (pow2le_iff a b hb _).not.mp hp
    have hlt := not_le.mp hnot
    calc (a:ℚ)/(b:ℚ) < (2:ℚ)^((natLog2 a : Int) - (natLog2 b : Int)) := hlt
      _ = (2:ℚ)^((natLog2 a : Int) - (natLog2 b : Int) - 1 + 1) := by congr 1; ring

theorem ratLog2Int_le_of_lt (a b : Nat) (ha : 0 < a) (hb : 0 < b) (B : Int)
    (h : (a:ℚ)/(b:ℚ) < (2:ℚ)^(B+1)) : ratLog2Int a b ≤ B := by
  have h2 : (2:ℚ)^(ratLog2Int a b) < (2:ℚ)^(B+1) :=
    lt_of_le_of_lt (ratLog2Int_le a b ha hb) h
  have := (zpow_lt_zpow_iff_right₀ (by norm_num : (1:ℚ) < 2)).mp h2
  omega

theorem roundNEDiv_dvd (a b : Nat) (hb : 0 < b) (h : b ∣ a) :
    roundNEDiv a b = a / b := by
  unfold roundNEDiv
  have hr : a % b = 0 := (Nat.mod_eq_zero_of_dvd h)
  rw [hr]
  simp [hb]

theorem roundNEDiv_err (a b : Nat) (hb : 0 < b) :
    |(roundNEDiv a b : ℚ) - (a:ℚ)/(b:ℚ)| ≤ 1/2 := by
  have hbq : (0:ℚ) < b := by exact_mod_cast hb
  have hval : (a:ℚ)/(b:ℚ) = (a / b : ℕ) + ((a % b : ℕ) : ℚ)/(b:ℚ) := by
    have h1 : (a:ℚ) = (b:ℚ) * (a / b : ℕ) + ((a % b : ℕ) : ℚ) := by
      exact_mod_cast (Nat.div_add_mod a b).symm
    rw [h1]
    field_simp
    ring
  have hrlt : ((a % b : ℕ) : ℚ) / (b:ℚ) < 1 := by
    rw [div_lt_one hbq]
    exact_mod_cast Nat.mod_lt a hb
  have hrnn : (0:ℚ) ≤ ((a % b : ℕ) : ℚ) / (b:ℚ) := by positivity
  unfold roundNEDiv
  by_cases h1 : 2 * (a % b) < b
  · rw [if_pos h1]
    have hhalf : ((a % b : ℕ) : ℚ) / (b:ℚ) ≤ 1/2 := by
      rw [div_le_div_iff hbq (by norm_num)]
      have : ((2 * (a % b) : ℕ) : ℚ) ≤ (b:ℚ) := by exact_mod_cast h1.le
      push_cast at this ⊢
      linarith
    rw [hval, abs_le]
    constructor <;> push_cast <;> linarith
  · rw [if_neg h1]
    by_cases h2 : b < 2 * (a % b)
    · rw [if_pos h2]
      have hhalf : 1/2 ≤ ((a % b : ℕ) : ℚ) / (b:ℚ) := by
        rw [div_le_div_iff (by norm_num) hbq]
        have : (b:ℚ) ≤ ((2 * (a % b) : ℕ) : ℚ) := by exact_mod_cast h2.le
        push_cast at this ⊢
        linarith
      rw [hval, abs_le]
      constructor <;> push_cast <;> linarith
    · rw [if_neg h2]
      have heq : 2 * (a % b) = b := by omega
      have hhalf : ((a % b : ℕ) : ℚ) / (b:ℚ) = 1/2 := by
        rw [div_eq_div_iff hbq.ne' (by norm_num : (2:ℚ) ≠ 0)]
        have hcast : ((2 * (a % b) : ℕ) : ℚ) = (b:ℚ) := by exact_mod_cast congrArg Nat.cast heq
        push_cast at hcast ⊢
        linarith
      rw [hval, hhalf, abs_le]
      rcases Nat.even_or_odd (a / b) with he | ho
      · have hp : a / b % 2 = 0 := Nat.even_iff.mp he
        rw [hp]
        constructor <;> push_cast <;> linarith
      · have hp : a / b % 2 = 1 := Nat.odd_iff.mp ho
        rw [hp]
        constructor <;> push_cast <;> linarith

theorem flPair_comp (a b : Nat) :
    flPair a b = (if ratLog2Int a b - 52 ≤ 0
        then roundNEDiv (a * 2^((-(ratLog2Int a b - 52)).toNat)) b
        else roundNEDiv a (b * 2^((ratLog2Int a b - 52).toNat)),
      ratLog2Int a b - 52) := rfl

theorem flPair_err_aux (a b : Nat) (e : Int) (m : Nat) (ha : 0 < a) (hb : 0 < b)
    (hlow : (2:ℚ)^(e + 52) ≤ (a:ℚ)/(b:ℚ))
    (hm : m = if e ≤ 0 then roundNEDiv (a * 2^((-e).toNat)) b
          else roundNEDiv a (b * 2^(e.toNat))) :
    0 < m ∧ |(m:ℚ) * (2:ℚ)^e - (a:ℚ)/(b:ℚ)| ≤ ((a:ℚ)/(b:ℚ)) / 2^53 := by
  have hbq : (0:ℚ) < b := by exact_mod_cast hb
  have hv : (0:ℚ) < (a:ℚ)/(b:ℚ) := by positivity
  have hscaled : (2:ℚ)^(52:ℤ) ≤ ((a:ℚ)/(b:ℚ)) * (2:ℚ)^(-e) := by
    calc (2:ℚ)^(52:ℤ) = (2:ℚ)^(e + 52) * (2:ℚ)^(-e) := by
          rw [← zpow_add₀ (two_ne_zero)]
          congr 1
          ring
      _ ≤ ((a:ℚ)/(b:ℚ)) * (2:ℚ)^(-e) := by
          apply mul_le_mul_of_nonneg_right hlow (by positivity)
  have hmerr : |(m:ℚ) - ((a:ℚ)/(b:ℚ)) * (2:ℚ)^(-e)| ≤ 1/2 := by
    by_cases he : e ≤ 0
    · rw [hm, if_pos he]
      have hcast : ((a * 2^((-e).toNat) : ℕ) : ℚ) / (b:ℚ)
          = ((a:ℚ)/(b:ℚ)) * (2:ℚ)^(-e) := by
        have h2 : ((2^((-e).toNat) : ℕ) : ℚ) = (2:ℚ)^(-e) := by
          conv_rhs => rw [show -e = (((-e).toNat : ℕ) : ℤ) from (Int.toNat_of_nonneg (by omega)).symm]
          rw [zpow_natCast]
          push_cast
          ring
        push_cast
        rw [← h2]
        push_cast
        ring
      rw [← hcast]
      exact roundNEDiv_err _ b hb
    · rw [hm, if_neg he]
      have hcast : (a:ℚ) / ((b * 2^(e.toNat) : ℕ) : ℚ)
          = ((a:ℚ)/(b:ℚ)) * (2:ℚ)^(-e) := by
        have h2 : (2:ℚ)^e = (2:ℚ)^(e.toNat : ℕ) := by
          conv_lhs => rw [show e = ((e.toNat : ℕ) : ℤ) from (Int.toNat_of_nonneg (by omega)).symm]
          rw [zpow_natCast]
        rw [zpow_neg, h2]
        push_cast
        rw [div_mul_eq_div_div, div_eq_mul_inv]
      rw [← hcast]
      exact roundNEDiv_err a _ (by positivity)
  constructor
  · have hge : (2:ℚ)^(52:ℤ) - 1/2 ≤ (m:ℚ) := by
      have hx := (abs_le.mp hmerr).1
      linarith
    have hpos : (0:ℚ) < (m:ℚ) := by
      have h2 : (1:ℚ) ≤ (2:ℚ)^(52:ℤ) := by norm_num
      linarith
    exact_mod_cast hpos
  · have hepos : (0:ℚ) < (2:ℚ)^e := by positivity
    have key : (m:ℚ) * (2:ℚ)^e - (a:ℚ)/(b:ℚ)
        = ((m:ℚ) - ((a:ℚ)/(b:ℚ)) * (2:ℚ)^(-e)) * (2:ℚ)^e := by
      rw [sub_mul, mul_assoc, ← zpow_add₀ (two_ne_zero)]
      simp
    rw [key, abs_mul, abs_of_pos hepos]
    calc |(m:ℚ) - ((a:ℚ)/(b:ℚ)) * (2:ℚ)^(-e)| * (2:ℚ)^e
        ≤ (1/2) * (2:ℚ)^e := by
          apply mul_le_mul_of_nonneg_right hmerr hepos.le
      _ = (2:ℚ)^(e + 52) * (2:ℚ)^(-53 : ℤ) := by
          rw [← zpow_add₀ (two_ne_zero), show e + 52 + -53 = e - 1 by ring,
            zpow_sub₀ (two_ne_zero)]
          norm_num
          ring
      _ ≤ ((a:ℚ)/(b:ℚ)) * (2:ℚ)^(-53 : ℤ) := by
          apply mul_le_mul_of_nonneg_right hlow (by positivity)
      _ = ((a:ℚ)/(b:ℚ)) / 2^53 := by
          rw [zpow_neg, div_eq_mul_inv]
          norm_cast

theorem flPair_err (a b : Nat) (ha : 0 < a) (hb : 0 < b) :
    0 < (flPair a b).1
  ∧ |((flPair a b).1 : ℚ) * (2:ℚ)^((flPair a b).2) - (a:ℚ)/(b:ℚ)|
      ≤ ((a:ℚ)/(b:ℚ)) / 2^53 := by
  rw [flPair_comp a b]
  apply flPair_err_aux a b (ratLog2Int a b - 52) _ ha hb
  · rw [show ratLog2Int a b - 52 + 52 = ratLog2Int a b by ring]
    exact ratLog2Int_le a b ha hb
  · rfl

theorem pairRoundHalfUp_eq (m : Nat) (e : Int) :
    pairRoundHalfUp (m, e) = ⌊(m:ℚ) * (2:ℚ)^e + 1/2⌋ := by
  unfold pairRoundHalfUp
  by_cases he : 0 ≤ e
  · rw [if_pos he]
    have h1 : (m:ℚ) * (2:ℚ)^e = ((m * 2^e.toNat : ℕ) : ℚ) := by
      conv_lhs => rw [show e = ((e.toNat : ℕ) : ℤ) from (Int.toNat_of_nonneg he).symm]
      rw [zpow_natCast]
      push_cast
      ring
    rw [h1, add_comm, Int.floor_add_nat]
    norm_num
  · rw [if_neg he]
    dsimp only
    have h2 : (2:ℚ)^e = (((2^(-e).toNat : ℕ) : ℚ))⁻¹ := by
      conv_lhs => rw [show e = -(((-e).toNat : ℕ) : ℤ) by omega]
      rw [zpow_neg, zpow_natCast]
      push_cast
      ring
    have hB : ((2^((-e).toNat + 1) : ℕ) : ℚ) ≠ 0 := by positivity
    have h1 : (m:ℚ) * (2:ℚ)^e + 1/2
        = ((2 * m + 2^(-e).toNat : ℕ) : ℚ) / ((2^((-e).toNat + 1) : ℕ) : ℚ) := by
      rw [h2, eq_div_iff hB]
      have hx : ((2^(-e).toNat : ℕ) : ℚ) ≠ 0 := by positivity
      push_cast [pow_succ]
      field_simp
      ring
    rw [h1, Rat.floor_natCast_div_natCast]
    exact (Int.natCast_div _ _).symm ▸ (Int.natCast_div _ _)

theorem floor_dist_le (x y : ℚ) (h : |x - y| ≤ 1/2) :
    (⌊x⌋ - ⌊y⌋).natAbs ≤ 1 := by
  obtain ⟨hl, hr⟩ := abs_le.mp h
  have f1 : ⌊x⌋ ≤ ⌊y⌋ + 1 := by
    calc ⌊x⌋ ≤ ⌊y + 1⌋ := Int.floor_le_floor (by linarith)
      _ = ⌊y⌋ + 1 := by exact_mod_cast Int.floor_add_int y 1
  have f2 : ⌊y⌋ ≤ ⌊x⌋ + 1 := by
    calc ⌊y⌋ ≤ ⌊x + 1⌋ := Int.floor_le_floor (by linarith)
      _ = ⌊x⌋ + 1 := by exact_mod_cast Int.floor_add_int x 1
  omega

theorem flPair_floor_pow2 (a j : Nat) (ha : 0 < a) (hj : 1 ≤ j)
    (hk : ratLog2Int a (2^j) + (j:Int) ≤ 52) :
    pairFloor (flPair a (2^j)) = ((a / 2^j : ℕ) : ℤ) := by
  rw [flPair_comp a (2^j)]
  set k := ratLog2Int a (2^j) with hkdef
  rw [if_pos (by omega : k - 52 ≤ (0:ℤ))]
  unfold pairFloor
  dsimp only
  rw [if_neg (by omega : ¬ ((0:ℤ) ≤ k - 52))]
  set s := (-(k - 52)).toNat with hsdef
  have hsj : j ≤ s := by omega
  have hdvd : 2^j ∣ a * 2^s := Dvd.dvd.mul_left (pow_dvd_pow 2 hsj) a
  rw [roundNEDiv_dvd _ _ (by positivity) hdvd]
  congr 1
  calc a * 2^s / 2^j / 2^s
      = a * 2^s / (2^j * 2^s) := Nat.div_div_eq_div_mul _ _ _
    _ = 2^s * a / (2^s * 2^j) := by rw [Nat.mul_comm a, Nat.mul_comm ((2:ℕ)^j)]
    _ = a / 2^j := Nat.mul_div_mul_left _ _ (by positivity)

/-- The binary64 `Math.floor(target*0.5)` agrees with the exact
`⌊t/2⌋` for targets up to 10^12: halving is a single exact rounding
there. -/
theorem jsFloorHalf_eq (t : Int) (h1 : 1 ≤ t) (hB : t ≤ 10^12) :
    jsFloorHalf t = ⌊(t:ℚ)/2⌋ := by
  unfold jsFloorHalf
  rw [if_neg (by omega : ¬ t ≤ 0)]
  have ha : 0 < t.toNat := by omega
  have hcast : ((t.toNat : ℕ) : ℚ) = (t:ℚ) := by
    exact_mod_cast congrArg (Int.cast : ℤ → ℚ) (Int.toNat_of_nonneg (by omega))
  have hk : ratLog2Int t.toNat (2^1) + (1:Int) ≤ 52 := by
    have hlt : ((t.toNat:ℕ):ℚ)/(((2^1 : ℕ)):ℚ) < (2:ℚ)^((50:Int)+1) := by
      rw [hcast]
      have hle : (t:ℚ) ≤ 10^12 := by exact_mod_cast hB
      have h51 : ((2:ℚ))^((50:Int)+1) = 2^(51:ℕ) := by
        rw [← zpow_natCast (2:ℚ) 51]
        congr 1
      rw [h51]
      norm_num
      nlinarith
    have := ratLog2Int_le_of_lt t.toNat (2^1) ha (by norm_num) 50 hlt
    omega
  rw [show (2:ℕ) = 2^1 from rfl, flPair_floor_pow2 t.toNat 1 ha (le_refl 1) hk]
  rw [show ((2:ℚ)) = (((2:ℕ)):ℚ) from by norm_num, ← hcast,
    Rat.floor_natCast_div_natCast]
  rw [Int.natCast_div]
  norm_num

/-- The binary64 `Math.floor(target*0.75)` agrees with the exact
`⌊t·3/4⌋` for targets up to 10^12: `3t/4` is a single exact rounding
there. -/
theorem jsFloor75_eq (t : Int) (h1 : 1 ≤ t) (hB : t ≤ 10^12) :
    jsFloor75 t = ⌊(t:ℚ) * 3 / 4⌋ := by
  unfold jsFloor75
  rw [if_neg (by omega : ¬ t ≤ 0)]
  have ha : 0 < 3 * t.toNat := by omega
  have hcast : ((t.toNat : ℕ) : ℚ) = (t:ℚ) := by
    exact_mod_cast congrArg (Int.cast : ℤ → ℚ) (Int.toNat_of_nonneg (by omega))
  have hk : ratLog2Int (3 * t.toNat) (2^2) + (2:Int) ≤ 52 := by
    have hlt : (((3 * t.toNat : ℕ)):ℚ)/(((2^2 : ℕ)):ℚ) < (2:ℚ)^((49:Int)+1) := by
      have hle : (t:ℚ) ≤ 10^12 := by exact_mod_cast hB
      have h3 : (((3 * t.toNat : ℕ)):ℚ) = 3 * (t:ℚ) := by
        push_cast
        rw [hcast]
      have h50 : ((2:ℚ))^((49:Int)+1) = 2^(50:ℕ) := by
        rw [← zpow_natCast (2:ℚ) 50]
        congr 1
      rw [h50, h3]
      norm_num
      nlinarith
    have := ratLog2Int_le_of_lt (3 * t.toNat) (2^2) ha (by norm_num) 49 hlt
    omega
  rw [show (4:ℕ) = 2^2 from rfl, flPair_floor_pow2 (3 * t.toNat) 2 ha (by norm_num) hk]
  have h4 : (t:ℚ) * 3 / 4 = (((3 * t.toNat : ℕ)):ℚ) / (((2^2:ℕ)):ℚ) := by
    push_cast
    rw [hcast]
    ring
  rw [h4, Rat.floor_natCast_div_natCast]
  exact Int.natCast_div _ _

/-- The binary64 percentage is within 1 of the exact rounded percentage
(it can differ: the accumulated relative error of the two roundings is
below 2⁻⁴⁰ of the value, far below the half-unit needed to move the
`Math.round` by more than one). -/
theorem jsPct_round_err (n t : Int) (hn : 1 ≤ n) (ht : 1 ≤ t) (hnB : n ≤ 10^12) :
    (jsPct n t - round ((100 * (n:ℚ)) / (t:ℚ))).natAbs ≤ 1 := by
  have hng : ¬ (n ≤ 0 ∨ t ≤ 0) := by omega
  have ha : 0 < n.toNat := by omega
  have hb : 0 < t.toNat := by omega
  have hcast_n : ((n.toNat : ℕ) : ℚ) = (n:ℚ) := by
    exact_mod_cast congrArg (Int.cast : ℤ → ℚ) (Int.toNat_of_nonneg (by omega))
  have hcast_t : ((t.toNat : ℕ) : ℚ) = (t:ℚ) := by
    exact_mod_cast congrArg (Int.cast : ℤ → ℚ) (Int.toNat_of_nonneg (by omega))
  set v : ℚ := ((n.toNat : ℕ) : ℚ) / ((t.toNat : ℕ) : ℚ) with hvdef
  have hv : 0 < v := by positivity
  have hvB : v ≤ 10^12 := by
    have h1 : v ≤ ((n.toNat : ℕ) : ℚ) := by
      apply div_le_self (by positivity)
      have : (1:ℚ) ≤ ((t.toNat : ℕ) : ℚ) := by exact_mod_cast hb
      linarith
    have h2 : ((n.toNat : ℕ) : ℚ) ≤ 10^12 := by
      rw [hcast_n]
      exact_mod_cast hnB
    linarith
  obtain ⟨pos1, err1⟩ := flPair_err n.toNat t.toNat ha hb
  set m1 := (flPair n.toNat t.toNat).1 with hm1def
  set e1 := (flPair n.toNat t.toNat).2 with he1def
  set x1 : ℚ := (m1:ℚ) * (2:ℚ)^e1 with hx1def
  have hu : ((2:ℚ)^(53:ℕ)) = 9007199254740992 := by norm_num
  have herr1 : |x1 - v| ≤ v / 2^53 := err1
  have hx1le : x1 ≤ 2 * v := by
    have h1 := (abs_le.mp herr1).2
    have h2 : v / 2^53 ≤ v := by
      apply div_le_self hv.le
      norm_num
    linarith
  have hp : 0 < m1 * 100 := by positivity
  obtain ⟨pos2, err2⟩ := flPair_err (m1 * 100) 1 hp one_pos
  set m2 := (flPair (m1 * 100) 1).1 with hm2def
  set e2 := (flPair (m1 * 100) 1).2 with he2def
  set x2 : ℚ := (m2:ℚ) * (2:ℚ)^(e2 + e1) with hx2def
  have herr2 : |(m2:ℚ) * (2:ℚ)^e2 - (m1:ℚ) * 100| ≤ ((m1:ℚ) * 100) / 2^53 := by
    have h1 : (((m1 * 100 : ℕ)):ℚ) / ((1:ℕ):ℚ) = (m1:ℚ) * 100 := by
      push_cast
      ring
    rw [← h1]
    exact err2
  have kx2 : |x2 - x1 * 100| ≤ (x1 * 100) / 2^53 := by
    have h2e : (0:ℚ) < (2:ℚ)^e1 := by positivity
    have key : x2 - x1 * 100 = ((m2:ℚ) * (2:ℚ)^e2 - (m1:ℚ) * 100) * (2:ℚ)^e1 := by
      rw [hx2def, hx1def, zpow_add₀ (two_ne_zero)]
      ring
    rw [key, abs_mul, abs_of_pos h2e]
    calc |(m2:ℚ) * (2:ℚ)^e2 - (m1:ℚ) * 100| * (2:ℚ)^e1
        ≤ (((m1:ℚ) * 100) / 2^53) * (2:ℚ)^e1 :=
          mul_le_mul_of_nonneg_right herr2 h2e.le
      _ = (x1 * 100) / 2^53 := by
          rw [hx1def]
          ring
  have total : |x2 - 100 * v| ≤ 1/2 := by
    have t1 : |x2 - 100 * v| ≤ |x2 - x1 * 100| + |x1 * 100 - 100 * v| :=
      abs_sub_le x2 (x1 * 100) (100 * v)
    have t2 : |x1 * 100 - 100 * v| = 100 * |x1 - v| := by
      rw [show x1 * 100 - 100 * v = 100 * (x1 - v) by ring, abs_mul]
      norm_num
    have t3 : (x1 * 100) / 2^53 ≤ (200 * v) / 2^53 := by
      apply (div_le_div_right (by positivity)).mpr
      linarith
    have t4 : (200 * v) / 2^53 + 100 * (v / 2^53) ≤ 1/2 := by
      rw [show (200 * v)/(2:ℚ)^53 + 100 * (v/(2:ℚ)^53) = (300 * v)/(2:ℚ)^53 by ring]
      rw [div_le_iff (by positivity)]
      calc (300:ℚ) * v ≤ 300 * 10^12 := by linarith
        _ ≤ 1/2 * 2^53 := by norm_num
    have t5 : 100 * |x1 - v| ≤ 100 * (v / 2^53) := by
      apply mul_le_mul_of_nonneg_left herr1 (by norm_num)
    linarith
  have hjs : jsPct n t = ⌊x2 + 1/2⌋ := by
    have hstep : jsPct n t = pairRoundHalfUp (m2, e2 + e1) := by
      unfold jsPct
      rw [if_neg hng]
    rw [hstep, pairRoundHalfUp_eq]
  have hround : round ((100 * (n:ℚ)) / (t:ℚ)) = ⌊100 * v + 1/2⌋ := by
    rw [round_eq]
    congr 1
    rw [hvdef, hcast_n, hcast_t, mul_div_assoc]
  rw [hjs, hround]
  apply floor_dist_le
  rw [show |x2 + 1/2 - (100 * v + 1/2)| = |x2 - 100 * v| from by rw [show x2 + 1/2 - (100 * v + 1/2) = x2 - 100 * v from by ring]]
  exact total

/-- C5 counterexample: the program computes the percentage in binary64,
where `(230/400)*100` evaluates to `57.49999999999999…` and
`Math.round` gives 57, while the exact `round(100·230/400) =
round(57.5) = 58` the claim asserts.  So the emitted notification does
not carry `round(100·n/t)`. -/
theorem milestone_pct_cex :
    progressNotif 230 400 = some (Notif.progress 230 400 57 false false false)
  ∧ round ((100 * ((230:Int) : ℚ)) / (((400:Int)) : ℚ)) = 58 := by
  constructor
  · decide
  · rw [← pct_eq_round 230 400 (by norm_num)]
    decide

/-- C5 (amended): for every accepted click with post-increment value
`n`, target `t` (both within the counter range, bounded here by 10^12)
and blessed value `b`: a progress notification is emitted iff `n` is a
multiple of 10, and it carries `n`, `t` and the binary64 percentage
`Math.round((n/t)*100)` — which is within 1 of the exact
`round(100·n/t)` but can differ from it — with the halfway flag iff
`n = ⌊t/2⌋`, the three-quarters flag iff `n = ⌊t·3/4⌋` and the
ten-remaining flag iff `n = t - 10`; separately, the distinct blessed
notification is emitted iff `b` is a non-empty string that `parseInt`s
to exactly `n`. -/
theorem milestone_spec (n t : Int) (hn : 1 ≤ n) (ht : 1 ≤ t)
    (hnB : n ≤ 10^12) (htB : t ≤ 10^12) (blessed : Option String) :
    ((progressNotif n t).isSome = true ↔ n % 10 = 0)
  ∧ (n % 10 = 0 →
      progressNotif n t =
        some (Notif.progress n t (jsPct n t)
          (n == ⌊(t : ℚ) / 2⌋) (n == ⌊(t : ℚ) * 3 / 4⌋) (n == t - 10)))
  ∧ (jsPct n t - round ((100 * (n : ℚ)) / (t : ℚ))).natAbs ≤ 1
  ∧ ((blessedNotif n blessed).isSome = true ↔
      ∃ s, blessed = some s ∧ s ≠ "" ∧ parseIntJS s = some (JsInt.num n)) := by
  refine ⟨?_, ?_, jsPct_round_err n t hn ht hnB, ?_⟩
  · by_cases h : n % 10 = 0 <;> simp [progressNotif, h]
  · intro h
    unfold progressNotif
    rw [if_pos h, jsFloorHalf_eq t ht htB, jsFloor75_eq t ht htB]
  · cases blessed with
    | none => simp [blessedNotif]
    | some s =>
      by_cases hc : s ≠ "" ∧ parseIntJS s = some (JsInt.num n)
      · simp [blessedNotif, hc]
      · simp only [blessedNotif, if_neg hc]
        simp only [not_and_or] at hc
        rcases hc with hc | hc <;> simp_all

theorem milestone_spec_witness :
    progressNotif 50 100 = some (Notif.progress 50 100 50 true false false)
  ∧ (blessedNotif 50 (some "50")).isSome = true := by
  constructor
  · have h := (milestone_spec 50 100 (by norm_num) (by norm_num) (by norm_num)
      (by norm_num) (some "50")).2.1 (by decide)
    rw [h, ← jsFloorHalf_eq 100 (by norm_num) (by norm_num),
      ← jsFloor75_eq 100 (by norm_num) (by norm_num)]
    decide
  · exact (milestone_spec 50 100 (by norm_num) (by norm_num) (by norm_num)
      (by norm_num) (some "50")).2.2.2.mpr ⟨"50", rfl, by decide, by decide⟩

/-! ### C3 (reset confirmation workflow) -/

/-- The CONFIRM consumption step, isolated (src/server.js 178-183). -/
theorem webhookAuthed_confirm (db : DB) (e now : Nat) (c : String) :
    webhookAuthed db (some ⟨c, e⟩) now "CONFIRM" =
      if e < now then ⟨addLog db "tg_command" "CONFIRM", none, [Notif.confirmExpired]⟩
      else ⟨(handleConfirmed (addLog db "tg_command" "CONFIRM") c).1, none,
        (handleConfirmed (addLog db "tg_command" "CONFIRM") c).2⟩ := rfl

/-- C3: `/reset` at time `t0` followed by the exact message `CONFIRM` at
time `t1` within the 60-second window zeroes `count`, blanks `ca`,
`blessed`, `decree` and `tide_warning`, sets `launched` to `'false'` and
deletes every ClickRecord (and reports completion); if `CONFIRM` arrives
after the expiry, no state field changes, no ClickRecord is deleted, and
the operator is told the confirmation expired.  The presence hypotheses
say the state rows exist (they always do after bootstrap); the reset
uses plain SQL `UPDATE`s, which touch only existing rows. -/
theorem reset_confirm_spec (adminChat : String) (db : DB) (t0 t1 : Nat)
    (hc : db.state.count.isSome = true) (hca : db.state.ca.isSome = true)
    (hb : db.state.blessed.isSome = true) (hd : db.state.decree.isSome = true)
    (hw : db.state.tide_warning.isSome = true) (hl : db.state.launched.isSome = true) :
    (t1 ≤ t0 + 60000 →
        (resetThenConfirm adminChat db t0 t1).db.state.count = some "0"
      ∧ (resetThenConfirm adminChat db t0 t1).db.state.ca = some ""
      ∧ (resetThenConfirm adminChat db t0 t1).db.state.blessed = some ""
      ∧ (resetThenConfirm adminChat db t0 t1).db.state.decree = some ""
      ∧ (resetThenConfirm adminChat db t0 t1).db.state.tide_warning = some ""
      ∧ (resetThenConfirm adminChat db t0 t1).db.state.launched = some "false"
      ∧ (resetThenConfirm adminChat db t0 t1).db.clicks = []
      ∧ (resetThenConfirm adminChat db t0 t1).sent = [Notif.resetDone])
  ∧ (t0 + 60000 < t1 →
        (resetThenConfirm adminChat db t0 t1).db.state = db.state
      ∧ (resetThenConfirm adminChat db t0 t1).db.clicks = db.clicks
      ∧ (resetThenConfirm adminChat db t0 t1).sent = [Notif.confirmExpired]) := by
  have e0 : resetThenConfirm adminChat db t0 t1 =
      webhookAuthed (addLog db "tg_command" "/reset")
        (some ⟨"reset", t0 + 60000⟩) t1 "CONFIRM" := by
    unfold resetThenConfirm
    rw [webhook_operator_eq, webhook_operator_eq]
    rfl
  obtain ⟨v1, h1⟩ := Option.isSome_iff_exists.mp hc
  obtain ⟨v2, h2⟩ := Option.isSome_iff_exists.mp hca
  obtain ⟨v3, h3⟩ := Option.isSome_iff_exists.mp hb
  obtain ⟨v4, h4⟩ := Option.isSome_iff_exists.mp hd
  obtain ⟨v5, h5⟩ := Option.isSome_iff_exists.mp hw
  obtain ⟨v6, h6⟩ := Option.isSome_iff_exists.mp hl
  constructor
  · intro h
    rw [e0, webhookAuthed_confirm, if_neg (Nat.not_lt.mpr h)]
    refine ⟨?_, ?_, ?_, ?_, ?_, ?_, rfl, rfl⟩
    · show db.state.count.map (fun _ => "0") = some "0"
      rw [h1]; rfl
    · show db.state.ca.map (fun _ => "") = some ""
      rw [h2]; rfl
    · show db.state.blessed.map (fun _ => "") = some ""
      rw [h3]; rfl
    · show db.state.decree.map (fun _ => "") = some ""
      rw [h4]; rfl
    · show db.state.tide_warning.map (fun _ => "") = some ""
      rw [h5]; rfl
    · show db.state.launched.map (fun _ => "false") = some "false"
      rw [h6]; rfl
  · intro h
    rw [e0, webhookAuthed_confirm, if_pos h]
    exact ⟨rfl, rfl, rfl⟩

theorem reset_confirm_spec_witness :
    (resetThenConfirm "1" db0 0 60000).db.state.count = some "0"
  ∧ (resetThenConfirm "1" db0 0 60000).db.state.ca = some ""
  ∧ (resetThenConfirm "1" db0 0 60000).db.state.blessed = some ""
  ∧ (resetThenConfirm "1" db0 0 60000).db.state.decree = some ""
  ∧ (resetThenConfirm "1" db0 0 60000).db.state.tide_warning = some ""
  ∧ (resetThenConfirm "1" db0 0 60000).db.state.launched = some "false"
  ∧ (resetThenConfirm "1" db0 0 60000).db.clicks = []
  ∧ (resetThenConfirm "1" db0 0 60000).sent = [Notif.resetDone] :=
  (reset_confirm_spec "1" db0 0 60000 rfl rfl rfl rfl rfl rfl).1 (by decide)

/-! ### C8 (/settarget validation) -/

/-- C8 counterexample: `parseInt` returns a binary64 double, so the
digit value 9007199254740993 = 2^53 + 1 is rounded (ties-to-even) to
2^53 and `/settarget 9007199254740993` stores `'9007199254740992'` —
the target field is not set to the integer the argument denotes. -/
theorem settarget_bigarg_cex :
    parseIntExact "9007199254740993" = some 9007199254740993
  ∧ (webhook "1" db0 none 0 ⟨"1", "/settarget 9007199254740993"⟩).db.state.target =
      some "9007199254740992"
  ∧ (some "9007199254740992" : Option String) ≠ some "9007199254740993" := by
  refine ⟨by decide, by decide, by decide⟩

/-- C8 (amended): an operator message whose command token is
`/settarget` sets `target` to the decimal numeral of `n` and confirms,
when the argument's digit value is a positive integer `n ≤ 2^53`
(exactly representable, so `parseInt` returns it unchanged; larger
values are rounded to the nearest double before being stored); when the
argument is missing, unparseable, or parses to a value below 1, `target`
is left unchanged and the operator receives the usage notification. -/
theorem settarget_spec (adminChat : String) (db : DB) (pending : Option PendingEntry)
    (now : Nat) (text : String) (hcmd : cmdOf (trimStr text) = "/settarget") :
    (∀ m : Int, parseIntExact (argOf (trimStr text)) = some m → 1 ≤ m → m ≤ 2^53 →
        (webhook adminChat db pending now ⟨adminChat, text⟩).db.state.target =
          some (toString m)
      ∧ (webhook adminChat db pending now ⟨adminChat, text⟩).sent =
          [Notif.targetUpdated (JsInt.num m)])
  ∧ ((parseIntJS (argOf (trimStr text)) = none
      ∨ (∃ v : Int, parseIntJS (argOf (trimStr text)) = some (JsInt.num v) ∧ v < 1)
      ∨ parseIntJS (argOf (trimStr text)) = some JsInt.negInf) →
        (webhook adminChat db pending now ⟨adminChat, text⟩).db.state.target =
          db.state.target
      ∧ (webhook adminChat db pending now ⟨adminChat, text⟩).sent =
          [Notif.usageSettarget]) := by
  have hnc : trimStr text ≠ "CONFIRM" := by
    intro he
    rw [he] at hcmd
    exact absurd hcmd (by decide)
  have e0 : webhook adminChat db pending now ⟨adminChat, text⟩ =
      dispatch (addLog db "tg_command" (takeStr (trimStr text) 120)) pending now
        (cmdOf (trimStr text)) (argOf (trimStr text)) := by
    rw [webhook_operator_eq]
    unfold webhookAuthed
    cases pending with
    | none => rfl
    | some p =>
      dsimp only
      rw [if_neg hnc]
  rw [e0, hcmd, dispatch_settarget_eq]
  constructor
  · intro m hm h1 h53
    have hnat : m.natAbs ≤ 2^53 := by omega
    have hp : parseIntJS (argOf (trimStr text)) = some (JsInt.num m) := by
      unfold parseIntJS
      rw [hm]
      exact congrArg some (roundIntToDouble_exact m hnat)
    rw [hp]
    dsimp only
    rw [if_pos (by simpa [jsTruthyPos] using h1)]
    refine ⟨?_, rfl⟩
    show some (jsIntToString (JsInt.num m)) = some (toString m)
    rw [jsIntToString_small m hnat]
  · intro hbad
    rcases hbad with hnone | ⟨v, hv, hlt⟩ | hninf
    · rw [hnone]
      exact ⟨rfl, rfl⟩
    · rw [hv]
      dsimp only
      rw [if_neg (by simp [jsTruthyPos]; omega)]
      exact ⟨rfl, rfl⟩
    · rw [hninf]
      dsimp only
      rw [if_neg (by simp [jsTruthyPos])]
      exact ⟨rfl, rfl⟩

theorem settarget_spec_witness :
    (webhook "1" db0 none 0 ⟨"1", "/settarget 150"⟩).db.state.target = some "150"
  ∧ (webhook "1" db0 none 0 ⟨"1", "/settarget 150"⟩).sent =
      [Notif.targetUpdated (JsInt.num 150)] :=
  (settarget_spec "1" db0 none 0 "/settarget 150" rfl).1 150 rfl (by decide) (by decide)

end Clawtherion
